import Mathlib

/-!
Verification development for the ubernet asynchronous TCP reachability
checker.  The Go sources under src/ are shallowly embedded: pure decision
logic becomes Lean functions, syscalls and channel operations become oracles
(their results are inputs) together with explicit operation traces, and the
Checker's mutable fields become an explicit state record.  Helper code of the
repository that is not under src/ (the platform poller binding, the address
parser, the pipe pool and the result-pipes map) is modelled from the spec and
marked as such in its doc comment.
-/

namespace Ubernet

/-- Error codes relevant to the non-blocking connect logic of src/socket.go;
`other n` stands for any further platform error code. -/
inductive Errno where
  | EALREADY
  | EINPROGRESS
  | EINTR
  | EISCONN
  | EINVAL
  | ECONNREFUSED
  | other (n : Nat)
deriving DecidableEq, Repr

/-- The pair returned by connect in src/socket.go. -/
structure ConnectOutcome where
  success : Bool
  err : Option Errno
deriving DecidableEq, Repr

/-- Shallow embedding of connect from src/socket.go.  The result of the OS
connect call is the oracle `serr` (`none` meaning the call returned nil); the
switch maps it to the reported (success, err) pair, with the EINVAL case
depending on runtime.GOOS. -/
def connect (goos : String) (serr : Option Errno) : ConnectOutcome :=
  match serr with
  | some Errno.EALREADY => ⟨false, none⟩
  | some Errno.EINPROGRESS => ⟨false, none⟩
  | some Errno.EINTR => ⟨false, none⟩
  | none => ⟨true, none⟩
  | some Errno.EISCONN => ⟨true, none⟩
  | some Errno.EINVAL =>
      if goos = "solaris" then ⟨true, none⟩ else ⟨false, some Errno.EINVAL⟩
  | some e => ⟨false, some e⟩

/-- Observable operations performed by the checker code: syscalls on file
descriptors, pipe-pool operations and registry operations, recorded in the
order the code performs them. -/
inductive Op where
  | socketSys (domain typ proto : Nat) (fd : Int)
  | closeOnExec (fd : Int)
  | setNonblock (fd : Int)
  | setQuickAck (fd : Int) (v : Nat)
  | connectSys (fd : Int)
  | closeFd (fd : Int)
  | getPipeOp (p : Nat)
  | putBackPipeOp (p : Nat)
  | registerPipeOp (fd : Int) (p : Nat)
  | deregisterPipeOp (fd : Int)
  | registerEventsOp (fd : Int)
  | setReadyOp
  | resetReadyOp
deriving DecidableEq, Repr

/-- unix.AF_INET. -/
def AF_INET : Nat := 2

/-- unix.SOCK_STREAM. -/
def SOCK_STREAM : Nat := 1

/-- Embedding of createSocket from src/socket.go: it ignores its address
arguments, always asks the OS for an AF_INET stream socket (the OS answer is
the oracle `sockRes`, a pair of the returned fd and the error, if any) and
marks the returned fd close-on-exec unconditionally. -/
def createSocket (sockRes : Int × Option Errno) : (Int × Option Errno) × List Op :=
  ((sockRes.1, sockRes.2),
    [Op.socketSys AF_INET SOCK_STREAM 0 sockRes.1, Op.closeOnExec sockRes.1])

/-- Embedding of setSockOpts from src/socket.go: sets the descriptor
non-blocking (failing early if that fails) and then disables delayed ACKs by
setting TCP_QUICKACK to 0; `nbErr` and `qaErr` are the two syscall results. -/
def setSockOpts (fd : Int) (nbErr qaErr : Option Errno) : Option Errno × List Op :=
  match nbErr with
  | some e => (some e, [Op.setNonblock fd])
  | none => (qaErr, [Op.setNonblock fd, Op.setQuickAck fd 0])

/-- Modelled from the spec: the zero-argument socket constructor that
CheckAddr calls is not under src/ (only this caller and the helpers
createSocket and setSockOpts are).  Per the spec it creates the stream
socket, marks it close-on-exec and applies the socket options before the
connect attempt, failing if any step fails. -/
def createSocketForCheck (sockRes : Int × Option Errno) (nbErr qaErr : Option Errno) :
    (Int × Option Errno) × List Op :=
  match createSocket sockRes with
  | ((fd, some e), tr1) => ((fd, some e), tr1)
  | ((fd, none), tr1) =>
      match setSockOpts fd nbErr qaErr with
      | (oerr, tr2) => ((fd, oerr), tr1 ++ tr2)

/-- The errors surfaced by the checker: a parse failure, a raw errno, the
ErrConnect wrapper, ErrTimeout, ErrCheckerAlreadyStarted, and the
errors.Wrap combinator used by CheckingLoop and pollingLoop. -/
inductive GoErr where
  | parseFail
  | errno (e : Errno)
  | errConnect (e : Errno)
  | errTimeout
  | errAlreadyStarted
  | wrap (msg : String) (e : GoErr)
deriving DecidableEq, Repr

/-- The operations connect itself performs on descriptors (src/socket.go):
only the connect syscall, never a close. -/
def connectOps (fd : Int) : List Op := [Op.connectSys fd]

/-- Embedding of waitPipeTimeout from src/checker.go over an explicit time
model: `delivery` says whether (and at which wait offset, with which value) a
result lands in the single-slot pipe; a negative offset means the value was
buffered before the wait began.  The select's timer fires after
`max timeout 0`, since time.After's channel is written asynchronously by the
runtime and fires as soon as possible on a non-positive duration.  A delivery
available strictly before the timer fires wins (in particular a value already
buffered beats a not-yet-fired immediate timer); a delivery exactly
concurrent with the firing is decided by the select's nondeterministic
choice, the oracle `tieToPipe`; otherwise ErrTimeout is returned.  The second
component is the elapsed wait. -/
def waitPipeTimeout (delivery : Option (Int × Option Errno)) (timeout : Int)
    (tieToPipe : Bool) : Option GoErr × Int :=
  match delivery with
  | some (t, v) =>
      if t < max timeout 0 ∨ (t = max timeout 0 ∧ tieToPipe = true) then
        (v.map GoErr.errno, max t 0)
      else (some GoErr.errTimeout, max timeout 0)
  | none => (some GoErr.errTimeout, max timeout 0)

/-- The operation trace of one waitConnectResult call (src/checker.go): it
acquires a pipe `p` from the pool, registers it for `fd` in the result-pipes
map, registers `fd` with the poller, and its deferred cleanup deregisters the
entry and puts the pipe back; these five operations happen in this order on
every path. -/
def waitConnectResultTrace (fd : Int) (p : Nat) : List Op :=
  [Op.getPipeOp p, Op.registerPipeOp fd p, Op.registerEventsOp fd,
   Op.deregisterPipeOp fd, Op.putBackPipeOp p]

/-- Embedding of waitConnectResult from src/checker.go, continued: the
operation trace is the same on every path (acquire, register pipe, register
with the poller, then the deferred deregister and put-back), while the result
depends on the registration outcome and the wait. -/
def waitConnectResult (fd : Int) (p : Nat) (regErr : Option Errno)
    (delivery : Option (Int × Option Errno)) (timeout : Int)
    (tieToPipe : Bool) : Option GoErr × Int × List Op :=
  match regErr with
  | some e => (some (GoErr.errno e), 0, waitConnectResultTrace fd p)
  | none =>
      let rw := waitPipeTimeout delivery timeout tieToPipe
      (rw.1, rw.2, waitConnectResultTrace fd p)

/-- The oracle inputs of one CheckAddr call: the outcome of address parsing
(modelled from the spec, parseSockAddr not being under src/), the socket and
option syscall results, the OS connect result, the pipe the pool hands out,
the poller-registration result, the delivery behaviour of the pipe, and the
select's nondeterministic choice when a delivery ties with the timer. -/
structure CheckEnv where
  parseOk : Bool
  sockFd : Int
  sockErr : Option Errno
  nbErr : Option Errno
  qaErr : Option Errno
  connRes : Option Errno
  pipe : Nat
  regErr : Option Errno
  delivery : Option (Int × Option Errno)
  tieToPipe : Bool
deriving Repr

/-- Embedding of CheckAddr from src/checker.go with an explicit clock: the
absolute deadline is fixed at entry as now + timeout, before parsing
(duration d1), socket creation (duration d2) and the connect attempt
(duration d3); a pending connect then waits only the remaining time to that
deadline.  Returns the result, the absolute finish time and the operation
trace; the deferred close of the descriptor is appended on every path that
follows a successful creation. -/
def CheckAddr (goos : String) (env : CheckEnv) (now timeout d1 d2 d3 : Int) :
    Option GoErr × Int × List Op :=
  let deadline := now + timeout
  if env.parseOk = false then (some GoErr.parseFail, now + d1, [])
  else
    match createSocketForCheck (env.sockFd, env.sockErr) env.nbErr env.qaErr with
    | ((_, some e), ctr) => (some (GoErr.errno e), now + d1 + d2, ctr)
    | ((fd, none), ctr) =>
        let out := connect goos env.connRes
        let tconn := now + d1 + d2 + d3
        match out.err with
        | some ce =>
            (some (GoErr.errConnect ce), tconn,
              ctr ++ connectOps fd ++ [Op.closeFd fd])
        | none =>
            if out.success then
              (none, tconn, ctr ++ connectOps fd ++ [Op.closeFd fd])
            else
              let wres := waitConnectResult fd env.pipe env.regErr env.delivery
                (deadline - tconn) env.tieToPipe
              (wres.1, tconn + wres.2.1,
                ctr ++ connectOps fd ++ wres.2.2 ++ [Op.closeFd fd])

/-- The result-pipes map, fd to pipe id, as an association list. -/
abbrev Registry : Type := List (Int × Nat)

/-- Modelled from the spec: popResultPipe of the result-pipes map (its
sync.Map implementation is not under src/) atomically retrieves and removes
the entry for `fd`, returning not-found (and the map unchanged) when no entry
exists. -/
def popResultPipe : Registry → Int → Option Nat × Registry
  | [], _ => (none, [])
  | (f, q) :: rest, fd =>
      if f = fd then (some q, rest)
      else ((popResultPipe rest fd).1, (f, q) :: (popResultPipe rest fd).2)

/-- Plain lookup in the result-pipes map. -/
def lookupPipe : Registry → Int → Option Nat
  | [], _ => none
  | (f, q) :: rest, fd => if f = fd then some q else lookupPipe rest fd

/-- The keys of the result-pipes map. -/
def regKeys (reg : Registry) : List Int :=
  match reg with
  | [] => []
  | (f, _) :: rest => f :: regKeys rest

/-- A readiness event as produced by the poller wait: a descriptor and the
error reported for it, if any. -/
structure PollEvent where
  fd : Int
  err : Option Errno
deriving DecidableEq, Repr

/-- Embedding of handlePollerEvents from src/checker.go: for each event in
order, pop the result pipe registered for the event's fd and deliver the
event's error on it; when no pipe is found the event is skipped and the loop
moves on.  Returns the final registry and the deliveries made, in order. -/
def handlePollerEvents (reg : Registry) :
    List PollEvent → Registry × List (Nat × Option Errno)
  | [] => (reg, [])
  | e :: es =>
      match popResultPipe reg e.fd with
      | (some q, reg') =>
          match handlePollerEvents reg' es with
          | (regF, ds) => (regF, (q, e.err) :: ds)
      | (none, _) => handlePollerEvents reg es

/-- The Checker's mutable fields (src/checker.go): the recorded poller fd
(-1 when not running), the readiness channel modelled as a generation counter
plus a closed flag (resetReady allocates a fresh open channel), and the
result-pipes map. -/
structure CheckerState where
  pollerFd : Int
  readyGen : Nat
  readyClosed : Bool
  registry : Registry
deriving DecidableEq, Repr

/-- Embedding of NewChecker from src/checker.go: poller fd -1, an open
readiness channel and empty maps. -/
def NewChecker : CheckerState :=
  { pollerFd := -1, readyGen := 0, readyClosed := false, registry := [] }

/-- Embedding of Checker.createPoller from src/checker.go: under the poller
lock, fail with ErrCheckerAlreadyStarted if a live poller fd (> 0) is already
recorded; otherwise ask the OS for a poller (the platform createPoller is not
under src/, so its answer is the oracle `osRes`) and record the fd. -/
def createPollerC (c : CheckerState) (osRes : Except Errno Int) :
    CheckerState × Except GoErr Int :=
  if c.pollerFd > 0 then (c, Except.error GoErr.errAlreadyStarted)
  else
    match osRes with
    | Except.error e => (c, Except.error (GoErr.errno e))
    | Except.ok fd => ({ c with pollerFd := fd }, Except.ok fd)

/-- Embedding of Checker.closePoller from src/checker.go: under the poller
lock, close the recorded fd if it is live and record -1. -/
def closePoller (c : CheckerState) : CheckerState × List Op :=
  if c.pollerFd > 0 then ({ c with pollerFd := -1 }, [Op.closeFd c.pollerFd])
  else ({ c with pollerFd := -1 }, [])

/-- Embedding of Checker.setReady from src/checker.go: closes the readiness
channel. -/
def setReady (c : CheckerState) : CheckerState :=
  { c with readyClosed := true }

/-- Embedding of Checker.resetReady from src/checker.go: replaces the
readiness channel with a fresh open one. -/
def resetReady (c : CheckerState) : CheckerState :=
  { c with readyGen := c.readyGen + 1, readyClosed := false }

/-- One iteration of the polling loop as observed by pollingLoop
(src/checker.go): either the external context is cancelled, or pollEvents
(not under src/; its answer is an oracle) returns an error or a batch of
events. -/
inductive LoopStep where
  | cancelled
  | poll (res : Except Errno (List PollEvent))

/-- Embedding of pollingLoop from src/checker.go over a finite schedule of
iterations: cancellation returns nil, a pollEvents failure returns the
wrapped error, and a batch is handled by handlePollerEvents before looping.
`none` means the schedule ran out before the loop returned. -/
def pollingLoop (c : CheckerState) :
    List LoopStep → Option (CheckerState × Option GoErr)
  | [] => none
  | LoopStep.cancelled :: _ => some (c, none)
  | LoopStep.poll (Except.error e) :: _ =>
      some (c, some (GoErr.wrap "error during polling loop" (GoErr.errno e)))
  | LoopStep.poll (Except.ok evs) :: rest =>
      pollingLoop { c with registry := (handlePollerEvents c.registry evs).1 } rest

/-- Embedding of CheckingLoop from src/checker.go: creates the poller
(wrapping a failure and returning with the state untouched), sets the
readiness signal, runs the polling loop, and on its return runs the deferred
calls in LIFO order: resetReady, then closePoller.  Returns the final state,
the returned error and the operation trace. -/
def CheckingLoop (c : CheckerState) (osRes : Except Errno Int)
    (steps : List LoopStep) : Option (CheckerState × Option GoErr × List Op) :=
  match createPollerC c osRes with
  | (c1, Except.error e) =>
      some (c1, some (GoErr.wrap "error creating poller" e), [])
  | (c1, Except.ok _) =>
      match pollingLoop (setReady c1) steps with
      | none => none
      | some (c3, r) =>
          match closePoller (resetReady c3) with
          | (c5, tr) => some (c5, r, [Op.setReadyOp, Op.resetReadyOp] ++ tr)

/-- `a` occurs strictly before `b` in the list `tr`. -/
def precedes (a b : Op) (tr : List Op) : Prop :=
  ∃ l1 l2 l3, tr = l1 ++ a :: l2 ++ b :: l3

/-- Shared state for one pending check racing its timeout cleanup against the
polling loop: the result-pipes registry, the contents of each single-slot
delivery channel (pipe id paired with the buffered value, for pipes currently
holding one), the pool of released pipes, and the loop's local copy of the
pipe it popped between the pop and the send. -/
structure RaceState where
  registry : Registry
  buf : List (Nat × Option Errno)
  pool : List Nat
  loopPopped : Option Nat
deriving DecidableEq, Repr

/-- The interleavable atomic actions: the polling loop's pop of the registry
entry and its subsequent send on the popped channel (two separate actions in
handlePollerEvents), and the timed-out waiter's deferred deregister and its
release of the channel back to the pool (drain-then-put, the release being
modelled from the spec since the pipe pool is not under src/). -/
inductive RaceStep where
  | loopPop
  | loopWrite
  | waiterDereg
  | waiterRelease
deriving DecidableEq, Repr

/-- Modelled from the spec: deregisterResultPipe removes the entry for `fd`
without requiring a prior pop; a no-op when the entry is already gone. -/
def removeEntry : Registry → Int → Registry
  | [], _ => []
  | (f, q) :: rest, fd =>
      if f = fd then removeEntry rest fd else (f, q) :: removeEntry rest fd

/-- The value currently buffered in pipe `p`, if any. -/
def bufLookup : List (Nat × Option Errno) → Nat → Option (Option Errno)
  | [], _ => none
  | (q, v) :: rest, p => if q = p then some v else bufLookup rest p

/-- One atomic action of the race between the polling loop handling the
readiness event `(fd, ev)` and the timed-out waiter cleaning up its pipe `p`:
the loop pops the registry entry and then sends the event error into the
popped single-slot channel (stuttering if the slot is full, as the send would
block); the waiter deregisters the entry and then drains and releases its
pipe to the pool. -/
def raceStep (fd : Int) (p : Nat) (ev : Option Errno) (s : RaceState) :
    RaceStep → RaceState
  | RaceStep.loopPop =>
      { s with registry := (popResultPipe s.registry fd).2,
               loopPopped := (popResultPipe s.registry fd).1 }
  | RaceStep.loopWrite =>
      match s.loopPopped with
      | some q =>
          match bufLookup s.buf q with
          | none => { s with buf := (q, ev) :: s.buf, loopPopped := none }
          | some _ => s
      | none => s
  | RaceStep.waiterDereg => { s with registry := removeEntry s.registry fd }
  | RaceStep.waiterRelease =>
      { s with buf := s.buf.filter (fun x => x.1 ≠ p), pool := s.pool ++ [p] }

/-- Run a schedule of interleaved actions from an initial state. -/
def runRace (fd : Int) (p : Nat) (ev : Option Errno) (init : RaceState)
    (sched : List RaceStep) : RaceState :=
  sched.foldl (raceStep fd p ev) init

theorem lookupPipe_eq_none_of_not_mem (reg : Registry) (fd : Int)
    (h : fd ∉ regKeys reg) : lookupPipe reg fd = none := by
  induction reg with
  | nil => rfl
  | cons hd rest ih =>
      rcases hd with ⟨f, q⟩
      simp only [regKeys, List.mem_cons] at h
      push_neg at h
      have hf : ¬ f = fd := fun hf => h.1 hf.symm
      simp only [lookupPipe, if_neg hf]
      exact ih h.2

theorem popResultPipe_removes (reg : Registry) (fd : Int) (q : Nat)
    (reg' : Registry) (h : popResultPipe reg fd = (some q, reg'))
    (hnd : (regKeys reg).Nodup) : lookupPipe reg' fd = none := by
  induction reg generalizing reg' with
  | nil => simp [popResultPipe] at h
  | cons hd rest ih =>
      rcases hd with ⟨f, p⟩
      simp only [regKeys, List.nodup_cons] at hnd
      by_cases hf : f = fd
      · subst hf
        have hme : popResultPipe ((f, p) :: rest) f = (some p, rest) := by
          simp [popResultPipe]
        rw [hme] at h
        have hr : reg' = rest := (congrArg Prod.snd h).symm
        rw [hr]
        exact lookupPipe_eq_none_of_not_mem rest f hnd.1
      · have hme : popResultPipe ((f, p) :: rest) fd =
            ((popResultPipe rest fd).1, (f, p) :: (popResultPipe rest fd).2) := by
          simp [popResultPipe, hf]
        rw [hme] at h
        have hr : reg' = (f, p) :: (popResultPipe rest fd).2 :=
          (congrArg Prod.snd h).symm
        have hq : (popResultPipe rest fd).1 = some q := congrArg Prod.fst h
        rw [hr]
        simp only [lookupPipe, if_neg hf]
        exact ih (popResultPipe rest fd).2 (by rw [← hq]) hnd.2

theorem pollingLoop_preserves (c : CheckerState) (steps : List LoopStep)
    (c1 : CheckerState) (r : Option GoErr)
    (h : pollingLoop c steps = some (c1, r)) :
    c1.pollerFd = c.pollerFd ∧ c1.readyGen = c.readyGen ∧
      c1.readyClosed = c.readyClosed := by
  induction steps generalizing c with
  | nil => simp [pollingLoop] at h
  | cons s rest ih =>
      rcases s with _ | res
      · simp only [pollingLoop, Option.some.injEq, Prod.mk.injEq] at h
        rw [← h.1]
        exact ⟨rfl, rfl, rfl⟩
      · rcases res with e | evs
        · simp only [pollingLoop, Option.some.injEq, Prod.mk.injEq] at h
          rw [← h.1]
          exact ⟨rfl, rfl, rfl⟩
        · simp only [pollingLoop] at h
          exact ih { c with registry := (handlePollerEvents c.registry evs).1 } h

/-- C1: the connect-attempt outcome mapping of connect in src/socket.go:
pending (success = false, err = nil) exactly when the OS result is EALREADY,
EINPROGRESS or EINTR; success (success = true, err = nil) exactly when the
result is nil or EISCONN, or EINVAL on solaris; and in every other case the
underlying code is reported as the failure. -/
theorem connect_attempt_outcome_mapping (goos : String) (serr : Option Errno) :
    (connect goos serr = ⟨false, none⟩ ↔
      serr = some Errno.EALREADY ∨ serr = some Errno.EINPROGRESS ∨
        serr = some Errno.EINTR)
  ∧ (connect goos serr = ⟨true, none⟩ ↔
      serr = none ∨ serr = some Errno.EISCONN ∨
        (serr = some Errno.EINVAL ∧ goos = "solaris"))
  ∧ (∀ e, serr = some e →
      e ≠ Errno.EALREADY → e ≠ Errno.EINPROGRESS → e ≠ Errno.EINTR →
      e ≠ Errno.EISCONN → (e = Errno.EINVAL → goos ≠ "solaris") →
      connect goos serr = ⟨false, some e⟩) := by
  rcases serr with _ | e
  · refine ⟨by simp [connect], by simp [connect], ?_⟩
    intro e h
    cases h
  · by_cases hg : goos = "solaris" <;>
      cases e <;>
      refine ⟨by simp [connect, hg], by simp [connect, hg], ?_⟩ <;>
      · intro e he h1 h2 h3 h4 h5
        cases he
        simp_all [connect, hg]

/-- Witness for C1: on linux, ECONNREFUSED is reported as a failure carrying
the underlying code. -/
theorem connect_attempt_outcome_mapping_witness :
    connect "linux" (some Errno.ECONNREFUSED) =
      ⟨false, some Errno.ECONNREFUSED⟩ :=
  (connect_attempt_outcome_mapping "linux" (some Errno.ECONNREFUSED)).2.2
    Errno.ECONNREFUSED rfl (by decide) (by decide) (by decide) (by decide)
    (by intro h; cases h)

/-- C2: whenever CheckAddr's socket creation fully succeeds, the operation
trace starts by creating an AF_INET stream socket (the family matching the
IPv4 addresses the spec-modelled parser produces), marking it close-on-exec,
setting it non-blocking and disabling delayed ACKs (TCP_QUICKACK 0), all
strictly before the connect syscall is issued. -/
theorem socket_setup_before_connect (goos : String) (env : CheckEnv)
    (now timeout d1 d2 d3 : Int)
    (hp : env.parseOk = true) (hs : env.sockErr = none)
    (hn : env.nbErr = none) (hq : env.qaErr = none) :
    ∃ rest, (CheckAddr goos env now timeout d1 d2 d3).2.2 =
      Op.socketSys AF_INET SOCK_STREAM 0 env.sockFd :: Op.closeOnExec env.sockFd ::
      Op.setNonblock env.sockFd :: Op.setQuickAck env.sockFd 0 ::
      Op.connectSys env.sockFd :: rest := by
  rcases env with ⟨po, fd, se, nb, qa, cr, p, re, dl, tb⟩
  simp only at hp hs hn hq
  subst hp hs hn hq
  rcases hco : connect goos cr with ⟨succ, cerr⟩
  rcases cerr with _ | ce
  · rcases succ
    · refine ⟨waitConnectResultTrace fd p ++ [Op.closeFd fd], ?_⟩
      rcases re <;>
        simp [CheckAddr, createSocketForCheck, createSocket, setSockOpts,
          connectOps, waitConnectResult, waitConnectResultTrace, hco]
    · refine ⟨[Op.closeFd fd], ?_⟩
      simp [CheckAddr, createSocketForCheck, createSocket, setSockOpts,
        connectOps, hco]
  · refine ⟨[Op.closeFd fd], ?_⟩
    simp [CheckAddr, createSocketForCheck, createSocket, setSockOpts,
      connectOps, hco]

/-- Witness for C2 on a concrete pending check. -/
theorem socket_setup_before_connect_witness :
    ∃ rest,
      (CheckAddr "linux"
          ⟨true, 4, none, none, none, some Errno.EINPROGRESS, 3, none, none, false⟩
          0 5 1 1 1).2.2 =
        Op.socketSys AF_INET SOCK_STREAM 0 4 :: Op.closeOnExec 4 ::
        Op.setNonblock 4 :: Op.setQuickAck 4 0 :: Op.connectSys 4 :: rest :=
  socket_setup_before_connect "linux"
    ⟨true, 4, none, none, none, some Errno.EINPROGRESS, 3, none, none, false⟩
    0 5 1 1 1 rfl rfl rfl rfl

/-- C3: whenever socket creation succeeds, CheckAddr closes the created
descriptor exactly once, on every return path (synchronous connect error,
synchronous success, and each pending path: registration failure, delivered
result, or local timeout); and connect itself never closes a descriptor. -/
theorem descriptor_closed_on_every_path (goos : String) (env : CheckEnv)
    (now timeout d1 d2 d3 : Int)
    (hp : env.parseOk = true) (hs : env.sockErr = none)
    (hn : env.nbErr = none) (hq : env.qaErr = none) :
    ((CheckAddr goos env now timeout d1 d2 d3).2.2).count (Op.closeFd env.sockFd) = 1
  ∧ ∀ f g, Op.closeFd f ∉ connectOps g := by
  refine ⟨?_, by simp [connectOps]⟩
  rcases env with ⟨po, fd, se, nb, qa, cr, p, re, dl, tb⟩
  simp only at hp hs hn hq
  subst hp hs hn hq
  rcases hco : connect goos cr with ⟨succ, cerr⟩
  rcases cerr with _ | ce
  · rcases succ
    · rcases re <;>
        simp [CheckAddr, createSocketForCheck, createSocket, setSockOpts,
          connectOps, waitConnectResult, waitConnectResultTrace, hco,
          List.count_append, List.count_cons]
    · simp [CheckAddr, createSocketForCheck, createSocket, setSockOpts,
        connectOps, hco, List.count_append, List.count_cons]
  · simp [CheckAddr, createSocketForCheck, createSocket, setSockOpts,
      connectOps, hco, List.count_append, List.count_cons]

/-- Witness for C3 on a concrete pending check that times out. -/
theorem descriptor_closed_on_every_path_witness :
    ((CheckAddr "linux"
        ⟨true, 4, none, none, none, some Errno.EINPROGRESS, 3, none, none, false⟩
        0 5 1 1 1).2.2).count (Op.closeFd 4) = 1 :=
  (descriptor_closed_on_every_path "linux"
    ⟨true, 4, none, none, none, some Errno.EINPROGRESS, 3, none, none, false⟩
    0 5 1 1 1 rfl rfl rfl rfl).1

/-- C5: in waitConnectResult the delivery pipe is registered in the
result-pipes map strictly before the descriptor is registered with the
poller, on every path. -/
theorem registry_registration_before_poller (fd : Int) (p : Nat)
    (regErr : Option Errno) (delivery : Option (Int × Option Errno))
    (timeout : Int) (tieToPipe : Bool) :
    precedes (Op.registerPipeOp fd p) (Op.registerEventsOp fd)
      (waitConnectResult fd p regErr delivery timeout tieToPipe).2.2 := by
  cases regErr <;>
    exact ⟨[Op.getPipeOp p], [],
      [Op.deregisterPipeOp fd, Op.putBackPipeOp p], rfl⟩

/-- C10: on every exit path of waitConnectResult (delivered result, local
timeout, or poller-registration failure) the deferred cleanup runs last and
exactly once: it deregisters the descriptor's registry entry and puts the
acquired pipe back into the pool, and the pipe acquired at the start is the
one returned. -/
theorem wait_cleanup_deregisters_and_releases_once (fd : Int) (p : Nat)
    (regErr : Option Errno) (delivery : Option (Int × Option Errno))
    (timeout : Int) (tieToPipe : Bool) :
    ∃ pre, (waitConnectResult fd p regErr delivery timeout tieToPipe).2.2 =
        pre ++ [Op.deregisterPipeOp fd, Op.putBackPipeOp p]
      ∧ Op.deregisterPipeOp fd ∉ pre ∧ Op.putBackPipeOp p ∉ pre
      ∧ Op.getPipeOp p ∈ pre := by
  refine ⟨[Op.getPipeOp p, Op.registerPipeOp fd p, Op.registerEventsOp fd],
    ?_, by simp, by simp, by simp⟩
  cases regErr <;> rfl

/-- C9: counterexample to the claim as stated.  A pending connect entered
with the budget already exhausted (timeout 0, three elapsed time units) whose
single-slot pipe already holds a delivered result (offset -1, the polling
loop delivered between registration and the select) does not return
ErrTimeout: the buffered value beats the not-yet-fired immediate timer and
CheckAddr returns the delivered connect result. -/
theorem exhausted_budget_claim_counterexample :
    connect "linux" (some Errno.EINPROGRESS) = ⟨false, none⟩
  ∧ (0 : Int) ≤ 1 + 1 + 1
  ∧ (CheckAddr "linux"
        ⟨true, 4, none, none, none, some Errno.EINPROGRESS, 3, none,
          some (-1, some Errno.ECONNREFUSED), false⟩
        0 0 1 1 1).1 = some (GoErr.errno Errno.ECONNREFUSED)
  ∧ (CheckAddr "linux"
        ⟨true, 4, none, none, none, some Errno.EINPROGRESS, 3, none,
          some (-1, some Errno.ECONNREFUSED), false⟩
        0 0 1 1 1).1 ≠ some GoErr.errTimeout := by
  refine ⟨rfl, by decide, rfl, by decide⟩

/-- C9 (amended): CheckAddr fixes its absolute deadline at entry, before
parsing, socket creation and the connect attempt, and a pending connect waits
only the remaining time to that deadline; when the budget is already
exhausted at the start of the wait (timeout at most the elapsed durations,
including any timeout at most 0) and no result is available on the pipe
before the immediately-firing timer — none buffered from before the wait
began, and a delivery concurrent with the firing losing the select — it
returns ErrTimeout with no additional wait (finishing right at the connect
completion time), while still registering the pipe and the descriptor and
running the deferred cleanup and close. -/
theorem exhausted_budget_times_out_immediately (goos : String) (env : CheckEnv)
    (now timeout d1 d2 d3 : Int)
    (hp : env.parseOk = true) (hs : env.sockErr = none)
    (hn : env.nbErr = none) (hq : env.qaErr = none)
    (hpend : connect goos env.connRes = ⟨false, none⟩)
    (hreg : env.regErr = none)
    (hnowin : ∀ t v, env.delivery = some (t, v) →
      0 ≤ t ∧ (t = 0 → env.tieToPipe = false))
    (hex : timeout ≤ d1 + d2 + d3) :
    (CheckAddr goos env now timeout d1 d2 d3).1 = some GoErr.errTimeout
  ∧ (CheckAddr goos env now timeout d1 d2 d3).2.1 = now + d1 + d2 + d3
  ∧ Op.registerPipeOp env.sockFd env.pipe ∈ (CheckAddr goos env now timeout d1 d2 d3).2.2
  ∧ Op.registerEventsOp env.sockFd ∈ (CheckAddr goos env now timeout d1 d2 d3).2.2
  ∧ Op.deregisterPipeOp env.sockFd ∈ (CheckAddr goos env now timeout d1 d2 d3).2.2
  ∧ Op.putBackPipeOp env.pipe ∈ (CheckAddr goos env now timeout d1 d2 d3).2.2
  ∧ Op.closeFd env.sockFd ∈ (CheckAddr goos env now timeout d1 d2 d3).2.2 := by
  rcases env with ⟨po, fd, se, nb, qa, cr, p, re, dl, tb⟩
  simp only at hp hs hn hq hpend hreg hnowin
  subst hp hs hn hq hreg
  have hmax : max (now + timeout - (now + d1 + d2 + d3)) 0 = 0 := by omega
  rcases dl with _ | ⟨t, v⟩
  · simp [CheckAddr, createSocketForCheck, createSocket, setSockOpts,
      connectOps, waitConnectResult, waitConnectResultTrace, waitPipeTimeout,
      hpend, hmax]
  · obtain ⟨ht0, htb⟩ := hnowin t v rfl
    have hcond : ¬ (t < (0 : Int) ∨ (t = 0 ∧ tb = true)) := by
      rintro (hlt | ⟨hz, hb⟩)
      · omega
      · rw [htb hz] at hb
        cases hb
    simp [CheckAddr, createSocketForCheck, createSocket, setSockOpts,
      connectOps, waitConnectResult, waitConnectResultTrace, waitPipeTimeout,
      hpend, hmax, hcond]

/-- Witness for the amended C9: a pending check entered with a zero
remaining budget and an undelivered pipe times out immediately. -/
theorem exhausted_budget_times_out_immediately_witness :
    (CheckAddr "linux"
        ⟨true, 4, none, none, none, some Errno.EINPROGRESS, 3, none, none, false⟩
        0 3 1 1 1).1 = some GoErr.errTimeout :=
  (exhausted_budget_times_out_immediately "linux"
    ⟨true, 4, none, none, none, some Errno.EINPROGRESS, 3, none, none, false⟩
    0 3 1 1 1 rfl rfl rfl rfl rfl rfl
    (fun t v h => nomatch h) (by omega)).1

/-- C4: when a live poller fd is already recorded for the Checker,
CheckingLoop returns immediately with the wrapped ErrCheckerAlreadyStarted,
the state exactly unchanged (the first loop's poller is not closed and the
readiness signal is not reset) and no operation performed. -/
theorem second_checking_loop_rejected (c : CheckerState)
    (osRes : Except Errno Int) (steps : List LoopStep) (h : c.pollerFd > 0) :
    CheckingLoop c osRes steps =
      some (c, some (GoErr.wrap "error creating poller" GoErr.errAlreadyStarted),
        []) := by
  simp [CheckingLoop, createPollerC, h]

/-- Witness for C4 on a checker whose recorded poller fd is 5. -/
theorem second_checking_loop_rejected_witness :
    CheckingLoop { NewChecker with pollerFd := 5 } (Except.ok 9)
        [LoopStep.cancelled] =
      some ({ NewChecker with pollerFd := 5 },
        some (GoErr.wrap "error creating poller" GoErr.errAlreadyStarted), []) :=
  second_checking_loop_rejected { NewChecker with pollerFd := 5 } (Except.ok 9)
    [LoopStep.cancelled] (by decide)

/-- C6: in each batch, an event whose fd has a registered pipe causes the
entry to be popped (gone from the registry afterwards, given per-descriptor
uniqueness of entries) and the event's error-or-nil delivered on that pipe,
with the loop continuing on the remaining events; an event with no entry is
dropped, the loop simply continuing, with no error and no blocking (the
handler is a total function). -/
theorem poller_events_pop_deliver_or_drop (reg : Registry) (e : PollEvent)
    (es : List PollEvent) :
    (∀ q reg', popResultPipe reg e.fd = (some q, reg') →
        handlePollerEvents reg (e :: es) =
          ((handlePollerEvents reg' es).1,
            (q, e.err) :: (handlePollerEvents reg' es).2)
      ∧ ((regKeys reg).Nodup → lookupPipe reg' e.fd = none))
  ∧ ((popResultPipe reg e.fd).1 = none →
      handlePollerEvents reg (e :: es) = handlePollerEvents reg es) := by
  constructor
  · intro q reg' hpop
    constructor
    · rcases hh : handlePollerEvents reg' es with ⟨regF, ds⟩
      simp [handlePollerEvents, hpop, hh]
    · intro hnd
      exact popResultPipe_removes reg e.fd q reg' hpop hnd
  · intro hnone
    rcases hpop : popResultPipe reg e.fd with ⟨r, reg2⟩
    rw [hpop] at hnone
    have hr : r = none := hnone
    subst hr
    simp only [handlePollerEvents, hpop]

/-- Witness for C6: a registered event is delivered and an unregistered one
is dropped. -/
theorem poller_events_pop_deliver_or_drop_witness :
    handlePollerEvents [((1 : Int), 2)]
        [{ fd := 1, err := some Errno.ECONNREFUSED }] =
      ([], [(2, some Errno.ECONNREFUSED)])
  ∧ handlePollerEvents ([] : Registry)
        [{ fd := 1, err := some Errno.ECONNREFUSED }] =
      handlePollerEvents ([] : Registry) [] := by
  constructor
  · have h := ((poller_events_pop_deliver_or_drop [((1 : Int), 2)]
      { fd := 1, err := some Errno.ECONNREFUSED } []).1 2 [] (by decide)).1
    rw [h]
    rfl
  · exact (poller_events_pop_deliver_or_drop ([] : Registry)
      { fd := 1, err := some Errno.ECONNREFUSED } []).2 (by decide)

/-- C7: the polling loop returns nil on external cancellation and the
wrapped error on a pollEvents failure, and in both cases CheckingLoop
propagates that result after its deferred cleanup: the readiness signal is
reset (a fresh open channel) and the poller is closed, the recorded handle
becoming the not-running value -1. -/
theorem checking_loop_cancel_or_error_cleanup (c : CheckerState) (pfd : Int)
    (steps : List LoopStep) (hidle : ¬ c.pollerFd > 0) (hpfd : pfd > 0) :
    (∀ rest (c' : CheckerState),
      pollingLoop c' (LoopStep.cancelled :: rest) = some (c', none))
  ∧ (∀ rest (c' : CheckerState) e,
      pollingLoop c' (LoopStep.poll (Except.error e) :: rest) =
        some (c', some (GoErr.wrap "error during polling loop" (GoErr.errno e))))
  ∧ (∀ c1 r,
      pollingLoop (setReady { c with pollerFd := pfd }) steps = some (c1, r) →
      CheckingLoop c (Except.ok pfd) steps =
        some ({ c1 with pollerFd := -1, readyGen := c1.readyGen + 1, readyClosed := false },
          r, [Op.setReadyOp, Op.resetReadyOp, Op.closeFd pfd])) := by
  refine ⟨fun rest c' => rfl, fun rest c' e => rfl, ?_⟩
  intro c1 r h
  have hfd : c1.pollerFd = pfd :=
    (pollingLoop_preserves _ steps c1 r h).1
  simp only [CheckingLoop, createPollerC, if_neg hidle, h]
  simp [closePoller, resetReady, hfd, hpfd]

/-- Witness for C7: an immediately cancelled loop returns nil and leaves the
poller closed and the readiness signal reset. -/
theorem checking_loop_cancel_or_error_cleanup_witness :
    CheckingLoop NewChecker (Except.ok 5) [LoopStep.cancelled] =
      some ({ pollerFd := -1, readyGen := 1, readyClosed := false, registry := [] },
        none, [Op.setReadyOp, Op.resetReadyOp, Op.closeFd 5]) := by
  have h := (checking_loop_cancel_or_error_cleanup NewChecker 5
      [LoopStep.cancelled] (by decide) (by decide)).2.2
    (setReady { NewChecker with pollerFd := 5 }) none rfl
  exact h

/-- C8: counterexample schedule.  One check on fd 7 with pipe 3 is pending
and registered; the loop pops the entry, then the waiter times out,
deregisters (a no-op, the entry is already popped), drains and releases pipe
3 to the pool, and only then does the loop's send land in the channel: the
pooled pipe now holds the stale delivery, so the next check that re-acquires
pipe 3 from the pool observes a value from the previous, unrelated check. -/
theorem pool_reuse_observes_stale_value :
    (runRace 7 3 (some Errno.ECONNREFUSED)
        { registry := [(7, 3)], buf := [], pool := [], loopPopped := none }
        [RaceStep.loopPop, RaceStep.waiterDereg, RaceStep.waiterRelease,
         RaceStep.loopWrite]).pool = [3]
  ∧ bufLookup (runRace 7 3 (some Errno.ECONNREFUSED)
        { registry := [(7, 3)], buf := [], pool := [], loopPopped := none }
        [RaceStep.loopPop, RaceStep.waiterDereg, RaceStep.waiterRelease,
         RaceStep.loopWrite]).buf 3 = some (some Errno.ECONNREFUSED) := by
  constructor <;> rfl

end Ubernet
